import Mathlib

/-!
Verification of the secure-tools repository: a shallow embedding of the
secrets broker (`src/secure_tools/secrets_broker.py`), the orchestrator
(`src/secure_tools/orchestrator.py`), the weather tool executor
(`src/secure_tools/tools/executors.py`) and the relevant configuration
(`src/src/config.py`), together with theorems settling the frozen claims
about secret resolution, output scrubbing, registration, validation and
the session tool-call limit.

Python dictionaries are embedded as insertion-ordered association lists,
Python exceptions as `Except String`, the process environment and the
external 1Password CLI as an explicit `World` record of oracles, and the
mutable broker/orchestrator objects as explicit state records that every
operation threads.
-/

namespace SecureTools

/-! ## Python dictionaries as insertion-ordered association lists -/

/-- A Python `dict` with string keys: an association list in insertion
order, with at most one binding per key. -/
abbrev PyDict (α : Type) := List (String × α)

/-- `d[k]` / `d.get(k)`: the value bound to `k`, if any. -/
def dictLookup {α : Type} (d : PyDict α) (k : String) : Option α :=
  match d with
  | [] => none
  | (k', v) :: rest => if k' = k then some v else dictLookup rest k

/-- `d[k] = v`: replace the binding in place if `k` is present, otherwise
append it (Python dicts keep insertion order). -/
def dictInsert {α : Type} (d : PyDict α) (k : String) (v : α) : PyDict α :=
  match d with
  | [] => [(k, v)]
  | (k', v') :: rest =>
      if k' = k then (k, v) :: rest else (k', v') :: dictInsert rest k v

theorem dictLookup_insert_self {α : Type} (d : PyDict α) (k : String) (v : α) :
    dictLookup (dictInsert d k v) k = some v := by
  induction d with
  | nil => simp [dictInsert, dictLookup]
  | cons p rest ih =>
      by_cases h : p.1 = k
      · simp [dictInsert, h, dictLookup]
      · simp [dictInsert, h, dictLookup, ih]

theorem mem_dictInsert {α : Type} {d : PyDict α} {k : String} {v : α}
    {p : String × α} (h : p ∈ dictInsert d k v) : p = (k, v) ∨ p ∈ d := by
  induction d with
  | nil => simpa [dictInsert] using h
  | cons q rest ih =>
      obtain ⟨k', v'⟩ := q
      by_cases hq : k' = k
      · simp only [dictInsert, if_pos hq, List.mem_cons] at h
        rcases h with h | h
        · exact Or.inl h
        · exact Or.inr (List.mem_cons_of_mem _ h)
      · simp only [dictInsert, if_neg hq, List.mem_cons] at h
        rcases h with h | h
        · exact Or.inr (h ▸ List.mem_cons_self _ _)
        · rcases ih h with h' | h'
          · exact Or.inl h'
          · exact Or.inr (List.mem_cons_of_mem _ h')

/-! ## Python string helpers -/

/-- Whitespace stripped by Python `str.strip()` with no argument (the
ASCII whitespace characters; the further Unicode space characters Python
also strips play no role in this development). -/
def pySpace (c : Char) : Bool :=
  c = ' ' || c = '\t' || c = '\n' || c = '\x0d' || c = '\x0b' || c = '\x0c'

/-- Python `str.strip()`: drop leading and trailing whitespace. -/
def pyStrip (s : String) : String :=
  String.mk (((s.data.dropWhile pySpace).reverse.dropWhile pySpace).reverse)

/-- Python `str(x)` for an `Optional[str]`: `None` prints as `"None"`. -/
def pyStrOpt (o : Option String) : String :=
  match o with
  | some s => s
  | none => "None"

/-- Core of Python `str.replace(pat, repl)`: scan left to right, replacing
every non-overlapping occurrence of `pat`.  Structural recursion on a
fuel argument (one unit per consumed character) keeps the definition
kernel-reducible; `replaceCore` instantiates the fuel with the length of
the scanned list, which the recursion never exceeds. -/
def replaceFuel (pat repl : List Char) : Nat → List Char → List Char
  | _, [] => []
  | 0, s => s
  | fuel + 1, c :: rest =>
      if pat ≠ [] ∧ pat <+: (c :: rest) then
        repl ++ replaceFuel pat repl fuel (rest.drop (pat.length - 1))
      else
        c :: replaceFuel pat repl fuel rest

/-- Replace every non-overlapping occurrence of `pat`, left to right.
The broker only ever calls this with a non-empty pattern (`if secret:`
guards the call); for an empty pattern this embedding is the identity. -/
def replaceCore (pat repl s : List Char) : List Char :=
  replaceFuel pat repl s.length s

/-- Python `s.replace(pat, repl)` (for the non-empty patterns the broker
uses). -/
def pyReplace (s pat repl : String) : String :=
  String.mk (replaceCore pat.data repl.data s.data)

/-! ### Occurrence lemmas about `replaceCore`

These establish that replacing a pattern really removes every occurrence
of it, and that later replacements cannot reintroduce a value that was
already absent, as long as the value shares no character with the
replacement marker. -/

theorem pref_cons_elim {a c : Char} {q l : List Char}
    (h : a :: q <+: c :: l) : a = c ∧ q <+: l := by
  rcases h with ⟨u, hu⟩
  injection hu with h1 h2
  exact ⟨h1, u, h2⟩

theorem occ_cons_elim {pat l : List Char} {c : Char}
    (h : pat <:+: c :: l) : pat <+: c :: l ∨ pat <:+: l := by
  rcases h with ⟨s, t, hst⟩
  cases s with
  | nil => exact Or.inl ⟨t, by simpa using hst⟩
  | cons d s' =>
      right
      simp only [List.cons_append] at hst
      injection hst with h1 h2
      exact ⟨s', t, h2⟩

theorem occ_of_occ_drop {v l : List Char} {n : Nat}
    (h : v <:+: l.drop n) : v <:+: l := by
  rcases h with ⟨s, t, hst⟩
  refine ⟨l.take n ++ s, t, ?_⟩
  simp only [List.append_assoc] at hst ⊢
  rw [hst, List.take_append_drop]

theorem occ_of_occ_tail {v l : List Char} (c : Char)
    (h : v <:+: l) : v <:+: c :: l := by
  rcases h with ⟨s, t, hst⟩
  refine ⟨c :: s, t, ?_⟩
  simp only [List.cons_append, List.append_assoc] at hst ⊢
  rw [hst]

theorem occ_append_elim {pat t : List Char} :
    ∀ w : List Char, (∀ a ∈ pat, a ∉ w) → pat ≠ [] →
      pat <:+: w ++ t → pat <:+: t := by
  intro w
  induction w with
  | nil => intro _ _ h; simpa using h
  | cons c w' ih =>
      intro hd hne h
      rw [List.cons_append] at h
      rcases occ_cons_elim h with hp | ho
      · rcases pat with _ | ⟨a, pat'⟩
        · exact absurd rfl hne
        · have hac := (pref_cons_elim hp).1
          exact absurd (hac ▸ List.mem_cons_self c w')
            (hd a (List.mem_cons_self a pat'))
      · exact ih (fun a ha hw => hd a ha (List.mem_cons_of_mem _ hw)) hne ho

theorem pref_replaceFuel {pat repl : List Char} (hr : repl ≠ []) :
    ∀ (fuel : Nat) (s q : List Char), s.length ≤ fuel →
      (∀ a ∈ q, a ∉ repl) → q <+: replaceFuel pat repl fuel s → q <+: s := by
  intro fuel
  induction fuel with
  | zero =>
      intro s q hlen _ h
      have hs : s = [] := List.eq_nil_of_length_eq_zero (Nat.le_zero.mp hlen)
      subst hs
      simpa [replaceFuel] using h
  | succ fuel ih =>
      intro s q hlen hq h
      cases s with
      | nil => simpa [replaceFuel] using h
      | cons c rest =>
          simp only [replaceFuel] at h
          have hrest : rest.length ≤ fuel := by
            simp only [List.length_cons] at hlen; omega
          by_cases hc : pat ≠ [] ∧ pat <+: (c :: rest)
          · rw [if_pos hc] at h
            rcases q with _ | ⟨a, q'⟩
            · exact ⟨c :: rest, rfl⟩
            · rcases hrl : repl with _ | ⟨r, rl⟩
              · exact absurd hrl hr
              · rw [hrl, List.cons_append] at h
                have har := (pref_cons_elim h).1
                refine absurd ?_ (hq a (List.mem_cons_self a q'))
                rw [har, hrl]
                exact List.mem_cons_self r rl
          · rw [if_neg hc] at h
            rcases q with _ | ⟨a, q'⟩
            · exact ⟨c :: rest, rfl⟩
            · obtain ⟨hac, h2⟩ := pref_cons_elim h
              obtain ⟨u, hu⟩ :=
                ih rest q' hrest
                  (fun x hx hw => hq x (List.mem_cons_of_mem _ hx) hw) h2
              exact ⟨u, by rw [List.cons_append, hu, hac]⟩

theorem replaceFuel_no_occ {pat repl : List Char} (hp : pat ≠ [])
    (hr : repl ≠ []) (hd : ∀ a ∈ pat, a ∉ repl) :
    ∀ (fuel : Nat) (s : List Char), s.length ≤ fuel →
      ¬ pat <:+: replaceFuel pat repl fuel s := by
  intro fuel
  induction fuel with
  | zero =>
      intro s hlen h
      have hs : s = [] := List.eq_nil_of_length_eq_zero (Nat.le_zero.mp hlen)
      subst hs
      rcases h with ⟨u, t, hut⟩
      simp only [replaceFuel] at hut
      have h1 := (List.append_eq_nil.mp hut).1
      exact hp (List.append_eq_nil.mp h1).2
  | succ fuel ih =>
      intro s hlen hocc
      cases s with
      | nil =>
          rcases hocc with ⟨u, t, hut⟩
          simp only [replaceFuel] at hut
          have h1 := (List.append_eq_nil.mp hut).1
          exact hp (List.append_eq_nil.mp h1).2
      | cons c rest =>
          simp only [replaceFuel] at hocc
          have hrest : rest.length ≤ fuel := by
            simp only [List.length_cons] at hlen; omega
          by_cases hc : pat ≠ [] ∧ pat <+: (c :: rest)
          · rw [if_pos hc] at hocc
            have hdlen : (rest.drop (pat.length - 1)).length ≤ fuel := by
              simp only [List.length_drop]; omega
            exact ih _ hdlen (occ_append_elim repl hd hp hocc)
          · rw [if_neg hc] at hocc
            rcases occ_cons_elim hocc with hpref | ho
            · rcases pat with _ | ⟨a, pat'⟩
              · exact hp rfl
              · obtain ⟨hac, hrest'⟩ := pref_cons_elim hpref
                obtain ⟨u, hu⟩ :=
                  pref_replaceFuel hr fuel rest pat' hrest
                    (fun x hx hw => hd x (List.mem_cons_of_mem _ hx) hw) hrest'
                exact hc ⟨hp, ⟨u, by rw [List.cons_append, hu, hac]⟩⟩
            · exact ih rest hrest ho

theorem replaceFuel_pres {v repl : List Char} (hv : v ≠ []) (hr : repl ≠ [])
    (hd : ∀ a ∈ v, a ∉ repl) (pat : List Char) :
    ∀ (fuel : Nat) (s : List Char), s.length ≤ fuel →
      ¬ v <:+: s → ¬ v <:+: replaceFuel pat repl fuel s := by
  intro fuel
  induction fuel with
  | zero =>
      intro s hlen hs h
      have hnil : s = [] := List.eq_nil_of_length_eq_zero (Nat.le_zero.mp hlen)
      subst hnil
      exact hs (by simpa [replaceFuel] using h)
  | succ fuel ih =>
      intro s hlen hs hocc
      cases s with
      | nil => exact hs (by simpa [replaceFuel] using hocc)
      | cons c rest =>
          simp only [replaceFuel] at hocc
          have hrest : rest.length ≤ fuel := by
            simp only [List.length_cons] at hlen; omega
          by_cases hc : pat ≠ [] ∧ pat <+: (c :: rest)
          · rw [if_pos hc] at hocc
            have hdlen : (rest.drop (pat.length - 1)).length ≤ fuel := by
              simp only [List.length_drop]; omega
            exact ih _ hdlen
              (fun hx => hs (occ_of_occ_tail c (occ_of_occ_drop hx)))
              (occ_append_elim repl hd hv hocc)
          · rw [if_neg hc] at hocc
            rcases occ_cons_elim hocc with hpref | ho
            · rcases v with _ | ⟨a, v'⟩
              · exact hv rfl
              · obtain ⟨hac, hrest'⟩ := pref_cons_elim hpref
                obtain ⟨u, hu⟩ :=
                  pref_replaceFuel hr fuel rest v' hrest
                    (fun x hx hw => hd x (List.mem_cons_of_mem _ hx) hw) hrest'
                exact hs ⟨[], u, by rw [List.nil_append, List.cons_append, hu, hac]⟩
            · exact ih rest hrest (fun hx => hs (occ_of_occ_tail c hx)) ho

/-- Replacing a non-empty pattern sharing no character with the
replacement leaves no occurrence of the pattern. -/
theorem replaceCore_no_occ {pat repl : List Char} (hp : pat ≠ [])
    (hr : repl ≠ []) (hd : ∀ a ∈ pat, a ∉ repl) (s : List Char) :
    ¬ pat <:+: replaceCore pat repl s :=
  replaceFuel_no_occ hp hr hd s.length s (Nat.le_refl _)

/-- A value absent from `s` and sharing no character with the
replacement is still absent after replacing any pattern in `s`. -/
theorem replaceCore_pres {v repl : List Char} (hv : v ≠ []) (hr : repl ≠ [])
    (hd : ∀ a ∈ v, a ∉ repl) (pat s : List Char) (hs : ¬ v <:+: s) :
    ¬ v <:+: replaceCore pat repl s :=
  replaceFuel_pres hv hr hd pat s.length s (Nat.le_refl _) hs

/-! ## Data model (`secure_tools/secrets_broker.py`, `secure_tools/tools/__init__.py`) -/

/-- `SecretReference`: a reference to one credential, with an optional
environment-variable source and an optional 1Password `(vault, item)`
source; `field` defaults to `"password"` in the Python model. -/
structure SecretReference where
  env_var : Option String := none
  vault : Option String := none
  item : Option String := none
  field : String := "password"
deriving DecidableEq

/-- `SecretReference.uri`: the `op://vault/item/field` URI, or `None`
when the `(vault, item)` pair is not fully configured. -/
def refUri (ref : SecretReference) : Option String :=
  match ref.vault, ref.item with
  | some v, some i => some ("op://" ++ v ++ "/" ++ i ++ "/" ++ ref.field)
  | _, _ => none

/-- `SecretReference.has_op_reference`. -/
def hasOpReference (ref : SecretReference) : Bool :=
  ref.vault.isSome && ref.item.isSome

/-- `SecretReference.has_env_var`. -/
def hasEnvVar (ref : SecretReference) : Bool :=
  ref.env_var.isSome

/-- `ToolCall`: a validated tool call (id, name, arguments).  Argument
values are strings, which covers every argument the modeled code reads. -/
structure ToolCall where
  id : String
  name : String
  arguments : PyDict String
deriving DecidableEq

/-- `ToolResult`: success flag and content string. -/
structure ToolResult where
  success : Bool
  content : String
deriving DecidableEq

/-- Outcome of one `subprocess.run(["op", "read", uri], ...)` call:
completion with an exit code, stdout and stderr; a
`subprocess.TimeoutExpired`; or a `FileNotFoundError` for a missing
executable. -/
inductive OpOutcome where
  | completed (returncode : Int) (stdout stderr : String)
  | timedOut
  | notFound
deriving DecidableEq

/-- The external world the broker interacts with: the process
environment (`os.environ.get`), the 1Password CLI (deterministic per
URI within one session), and the remote weather HTTP API used by
`_real_weather_api` (modeled abstractly: the call either returns a
result or raises). -/
structure World where
  env : String → Option String
  opRead : String → OpOutcome
  realWeather : String → String → String → Except String ToolResult

/-- A tool executor: `Function(arguments, secrets) -> ToolResult`, which
may also raise (`Except.error` carries `str(e)` of the exception). -/
abbrev Executor := PyDict String → PyDict String → Except String ToolResult

/-- The mutable state of a `SecretsBroker` instance: the
`require_secrets` flag and the `_executors`, `_secret_refs` and
`_secret_cache` dictionaries. -/
structure BrokerState where
  require_secrets : Bool
  executors : PyDict Executor
  secret_refs : PyDict (List SecretReference)
  cache : PyDict String

/-! ## Secrets broker operations (`secure_tools/secrets_broker.py`) -/

/-- `SecretsBroker.register_tool`: always (re)binds the executor; the
secret references are stored only when the passed list is truthy, i.e.
not `None` and not empty (`if secrets: self._secret_refs[name] = secrets`). -/
def registerTool (st : BrokerState) (name : String) (ex : Executor)
    (secrets : Option (List SecretReference)) : BrokerState :=
  { st with
    executors := dictInsert st.executors name ex,
    secret_refs :=
      match secrets with
      | some (r :: rs) => dictInsert st.secret_refs name (r :: rs)
      | _ => st.secret_refs }

/-- `SecretsBroker._get_secret_from_env`: the environment value, or
`None` when `env_var` is not configured, unset, or set to the empty
string (Python truthiness of `value`). -/
def getSecretFromEnv (w : World) (ref : SecretReference) : Option String :=
  match ref.env_var with
  | none => none
  | some n =>
      match w.env n with
      | none => none
      | some v => if v = "" then none else some v

/-- `SecretsBroker._get_secret_from_op`: raise if no 1Password reference
is configured; otherwise answer from `_secret_cache` or invoke the `op`
CLI, caching the stripped stdout on a zero exit code and raising a
distinct error on non-zero exit, timeout, or missing executable. -/
def getSecretFromOp (w : World) (cache : PyDict String)
    (ref : SecretReference) : Except String String × PyDict String :=
  match refUri ref with
  | none => (.error "No 1Password reference configured for this secret", cache)
  | some u =>
      match dictLookup cache u with
      | some v => (.ok v, cache)
      | none =>
          match w.opRead u with
          | .completed rc out err =>
              if rc ≠ 0 then
                (.error ("1Password CLI error: " ++ pyStrip err), cache)
              else
                (.ok (pyStrip out), dictInsert cache u (pyStrip out))
          | .timedOut => (.error "1Password CLI timed out", cache)
          | .notFound =>
              (.error
                "1Password CLI (op) not found. Install it with: brew install 1password-cli",
                cache)

/-- `SecretsBroker._get_secret`: environment variable first (used when
configured and non-empty), then the 1Password CLI, else raise. -/
def getSecret (w : World) (cache : PyDict String)
    (ref : SecretReference) : Except String String × PyDict String :=
  match getSecretFromEnv w ref with
  | some v => (.ok v, cache)
  | none =>
      if hasOpReference ref then getSecretFromOp w cache ref
      else
        (.error ("No secret source configured for field '" ++ ref.field ++
          "'. Set either env_var or vault/item in tools.yml."), cache)

/-- The identifier used in `_resolve_secrets` error messages:
`ref.env_var if ref.has_env_var else f"{ref.item}/{ref.field}"`. -/
def secretId (ref : SecretReference) : String :=
  match ref.env_var with
  | some e => e
  | none => pyStrOpt ref.item ++ "/" ++ ref.field

/-- The live-mode resolution failure message raised by
`_resolve_secrets` when `require_secrets` is set. -/
def requiredErr (ref : SecretReference) : String :=
  "Secret '" ++ secretId ref ++ "' is required but unavailable. " ++
    "Set the environment variable or configure 1Password."

/-- The per-reference loop of `SecretsBroker._resolve_secrets`: resolve
each reference, storing `secrets[ref.field]`; on a per-reference failure
either abort with the live-mode message (`require_secrets = True`) or
skip the field (mock mode). -/
def resolveLoop (w : World) (rq : Bool) :
    List SecretReference → PyDict String → PyDict String →
      Except String (PyDict String) × PyDict String
  | [], acc, cache => (.ok acc, cache)
  | ref :: rest, acc, cache =>
      match getSecret w cache ref with
      | (.ok v, cache') => resolveLoop w rq rest (dictInsert acc ref.field v) cache'
      | (.error _, cache') =>
          if rq then (.error (requiredErr ref), cache')
          else resolveLoop w rq rest acc cache'

/-- `SecretsBroker._resolve_secrets` for a tool name
(`self._secret_refs.get(tool_name, [])`). -/
def resolveSecrets (w : World) (st : BrokerState) (name : String) :
    Except String (PyDict String) × PyDict String :=
  resolveLoop w st.require_secrets ((dictLookup st.secret_refs name).getD []) [] st.cache

/-- `SecretsBroker._scrub_output`: replace every literal occurrence of
each truthy (non-empty) resolved secret value with `[REDACTED]`. -/
def scrubOutput (content : String) (secrets : PyDict String) : String :=
  secrets.foldl
    (fun acc p => if p.2 = "" then acc else pyReplace acc p.2 "[REDACTED]")
    content

/-- The secrets dictionary rebuilt from the cache in the exception
branch of `execute_tool`:
`{ref.field: self._secret_cache.get(ref.uri, "") for ref in ...}`. -/
def cachedSecrets (cache : PyDict String) (refs : List SecretReference) :
    PyDict String :=
  refs.foldl
    (fun acc ref =>
      dictInsert acc ref.field
        (match refUri ref with
         | some u => (dictLookup cache u).getD ""
         | none => ""))
    []

/-- The failure `ToolResult` built in the exception branch of
`execute_tool`: the message is scrubbed with the cache-derived secrets
when the tool has a truthy (non-empty) secret-reference list. -/
def exceptResult (st : BrokerState) (name : String) (cache : PyDict String)
    (e : String) : ToolResult :=
  let msg :=
    match dictLookup st.secret_refs name with
    | some (r :: rs) => scrubOutput e (cachedSecrets cache (r :: rs))
    | _ => e
  ⟨false, "Tool execution failed: " ++ msg⟩

/-- `SecretsBroker.execute_tool`: the only broker entry point.  It is a
total function into `ToolResult`: the unregistered-tool case returns a
failure result, and every exception while resolving or executing is
caught and converted into a scrubbed failure result. -/
def executeTool (w : World) (st : BrokerState) (call : ToolCall) :
    ToolResult × BrokerState :=
  match dictLookup st.executors call.name with
  | none =>
      (⟨false, "Tool '" ++ call.name ++ "' not registered with secrets broker"⟩, st)
  | some ex =>
      match resolveSecrets w st call.name with
      | (.ok secrets, cache') =>
          match ex call.arguments secrets with
          | .ok result =>
              (⟨result.success, scrubOutput result.content secrets⟩,
                { st with cache := cache' })
          | .error e =>
              (exceptResult st call.name cache' e, { st with cache := cache' })
      | (.error e, cache') =>
          (exceptResult st call.name cache' e, { st with cache := cache' })

/-- `SecretsBroker.clear_cache`. -/
def clearCache (st : BrokerState) : BrokerState :=
  { st with cache := [] }

/-! ## `json.dumps` for the flat string-valued objects the executors build

Python `json.dumps` with default options: `ensure_ascii=True` (non-ASCII
characters become `\uXXXX` escapes, lowercase hex, surrogate pairs above
the BMP), separators `", "` and `": "`, keys in insertion order. -/

def hexDigit (n : Nat) : Char :=
  if n < 10 then Char.ofNat (48 + n) else Char.ofNat (87 + n)

def hex4 (n : Nat) : String :=
  String.mk [hexDigit (n / 4096 % 16), hexDigit (n / 256 % 16),
             hexDigit (n / 16 % 16), hexDigit (n % 16)]

def jsonEscapeChar (c : Char) : String :=
  if c = '"' then "\\\""
  else if c = '\\' then "\\\\"
  else if c = '\n' then "\\n"
  else if c = '\t' then "\\t"
  else if c = '\x0d' then "\\r"
  else if c = '\x08' then "\\b"
  else if c = '\x0c' then "\\f"
  else if c.toNat < 0x20 ∨ c.toNat > 0x7e then
    if c.toNat ≥ 0x10000 then
      "\\u" ++ hex4 (0xd800 + (c.toNat - 0x10000) / 0x400) ++
        "\\u" ++ hex4 (0xdc00 + (c.toNat - 0x10000) % 0x400)
    else "\\u" ++ hex4 c.toNat
  else String.singleton c

def jsonStr (s : String) : String :=
  "\"" ++ String.join (s.data.map jsonEscapeChar) ++ "\""

def jsonMember (k v : String) : String :=
  jsonStr k ++ ": " ++ jsonStr v

/-- The `", "` item separator of `json.dumps` with default options. -/
def joinComma : List String → String
  | [] => ""
  | [m] => m
  | m :: rest => m ++ ", " ++ joinComma rest

def jsonObj (fields : PyDict String) : String :=
  "\x7b" ++ joinComma (fields.map fun p => jsonMember p.1 p.2) ++ "\x7d"

/-! ## Weather tool executor (`secure_tools/tools/executors.py`) -/

/-- One entry of the `mock_data` table in `_mock_weather`. -/
structure MockEntry where
  temp_c : Nat
  condition : String

/-- The `mock_data` table of `_mock_weather`. -/
def mockTable : PyDict MockEntry :=
  [("paris", ⟨12, "cloudy"⟩), ("london", ⟨8, "rainy"⟩),
   ("tokyo", ⟨18, "sunny"⟩), ("new york", ⟨5, "windy"⟩),
   ("san francisco", ⟨15, "foggy"⟩)]

/-- `split(",")[0]`: the segment before the first comma. -/
def takeUntilComma : List Char → List Char
  | [] => []
  | c :: rest => if c = ',' then [] else c :: takeUntilComma rest

/-- `location.lower().split(",")[0].strip()` (ASCII lowering, which
covers every key of the mock table). -/
def normalizeLoc (location : String) : String :=
  pyStrip (String.mk (takeUntilComma (location.data.map Char.toLower)))

/-- Python `round(t * 9 / 5 + 32)` for a natural `t`: the value has
denominator 5, so it is never exactly halfway between integers and
bankers rounding coincides with rounding to nearest. -/
def pyRoundF (t : Nat) : Nat :=
  (2 * (9 * t + 160) + 5) / 10

/-- `_mock_weather`: mock response keyed by normalized location, with the
requested temperature unit, serialized with `json.dumps`. -/
def mockWeather (location temp_format : String) : ToolResult :=
  let entry := (dictLookup mockTable (normalizeLoc location)).getD ⟨20, "partly cloudy"⟩
  let temp : Nat := if temp_format = "fahrenheit" then pyRoundF entry.temp_c else entry.temp_c
  let unit : String := if temp_format = "fahrenheit" then "°F" else "°C"
  ⟨true,
    jsonObj [("location", location), ("temperature", toString temp ++ unit),
             ("condition", entry.condition), ("source", "mock_data")]⟩

/-- `execute_get_current_weather`: mock mode when the `api_key` secret is
missing or falsy; otherwise the real API, degrading to a labeled mock
response when the API call raises. -/
def executeGetCurrentWeather (w : World) (arguments secrets : PyDict String) :
    ToolResult :=
  let location := (dictLookup arguments "location").getD "Unknown"
  let fmt := (dictLookup arguments "format").getD "celsius"
  match dictLookup secrets "api_key" with
  | none => mockWeather location fmt
  | some k =>
      if k = "" then mockWeather location fmt
      else
        match w.realWeather location fmt k with
        | .ok r => r
        | .error _ =>
            ⟨true, "Weather API unavailable, using cached data. " ++
              (mockWeather location fmt).content⟩

/-- The weather executor as registered with the broker (it catches every
API exception itself, so it never raises). -/
def weatherExecutor (w : World) : Executor :=
  fun args secrets => .ok (executeGetCurrentWeather w args secrets)

/-! ## Orchestrator (`secure_tools/orchestrator.py`, `src/config.py`) -/

/-- A registry entry (`ToolDefinition`); `required` embeds
`parameters.get("required", [])`, the only part of the JSON-Schema
parameter dictionary the modeled code reads. -/
structure ToolDefinition where
  name : String
  description : String
  required : List String
deriving DecidableEq

/-- `SecurityConfig`: the cumulative tool-call cap and the optional
allow-list (empty = all registered tools allowed). -/
structure SecurityConfig where
  max_tool_calls : Nat := 10
  allowed_tools : List String := []
deriving DecidableEq

/-- A raw tool-call request from the model:
`{"id": ..., "function": {"name": ..., "arguments": {...}}}` with every
part optional, as read by `_validate_tool_call` via `.get`. -/
structure RawToolCall where
  id : Option String := none
  funcName : Option String := none
  arguments : PyDict String := []
deriving DecidableEq

/-- First schema-required parameter missing from the arguments (the loop
in `_validate_tool_call` raises at the first such parameter). -/
def firstMissing (required : List String) (args : PyDict String) : Option String :=
  required.find? fun p => (dictLookup args p).isNone

/-- `Orchestrator._validate_tool_call`: name in registry, name in any
configured allow-list, every required parameter present; `ValueError`
messages are the `Except.error` values. -/
def validateToolCall (registry : PyDict ToolDefinition) (cfg : SecurityConfig)
    (tc : RawToolCall) : Except String ToolCall :=
  match tc.funcName with
  | none => .error "Unknown tool requested: None"
  | some n =>
      match dictLookup registry n with
      | none => .error ("Unknown tool requested: " ++ n)
      | some tool =>
          if !cfg.allowed_tools.isEmpty && !cfg.allowed_tools.contains n then
            .error ("Tool not allowed: " ++ n)
          else
            match firstMissing tool.required tc.arguments with
            | some p =>
                .error ("Missing required parameter '" ++ p ++ "' for tool '" ++ n ++ "'")
            | none => .ok ⟨tc.id.getD "unknown", n, tc.arguments⟩

/-- A conversation message (role, content, optional tool calls, optional
tool-call id; `None` lists are modeled as `[]`). -/
structure Message where
  role : String
  content : String
  tool_calls : List RawToolCall := []
  tool_call_id : Option String := none
deriving DecidableEq

/-- One model response, as far as `chat` reads it:
`message.get("content", "")` and `message.get("tool_calls", [])`. -/
structure ModelMessage where
  content : String := ""
  tool_calls : List RawToolCall := []
deriving DecidableEq

/-- Orchestrator instance state: the conversation, the cumulative
tool-call counter, and the broker it delegates to. -/
structure OrchState where
  conversation : List Message
  tool_call_count : Nat
  broker : BrokerState

/-- Result of one `chat` call: the final assistant content, or a raised
fatal error (session limit, connection failure). -/
inductive ChatOutcome where
  | final (content : String) (st : OrchState)
  | fatal (msg : String) (st : OrchState)

/-- The `RuntimeError` message for the cumulative session guard. -/
def runawayMsg (maxCalls : Nat) : String :=
  "Tool call limit exceeded (" ++ toString maxCalls ++
    "). This may indicate a runaway agent."

/-- The per-batch loop of `chat`: validate each requested call; a
validation failure is recorded as a tool message (never raised), a valid
call is delegated to the broker and its scrubbed content recorded. -/
def processCalls (w : World) (registry : PyDict ToolDefinition)
    (cfg : SecurityConfig) : List RawToolCall → OrchState → OrchState
  | [], st => st
  | tc :: rest, st =>
      match validateToolCall registry cfg tc with
      | .ok call =>
          let r := executeTool w st.broker call
          processCalls w registry cfg rest
            { st with
              broker := r.2,
              conversation := st.conversation ++
                [⟨"tool", r.1.content, [], some call.id⟩] }
      | .error e =>
          processCalls w registry cfg rest
            { st with
              conversation := st.conversation ++
                [⟨"tool", "Error executing tool: " ++ e, [],
                  some (tc.id.getD "unknown")⟩] }

/-- The `while True` loop of `Orchestrator.chat`, driven by the scripted
model responses.  On a batch of tool calls the counter is incremented by
the batch size first; exceeding the configured maximum raises the
runaway-agent error before the assistant message is appended or any call
of the batch is processed.  An exhausted script stands for the model
endpoint failing, which `_call_ollama` raises as a connection error. -/
def chatLoop (w : World) (registry : PyDict ToolDefinition)
    (cfg : SecurityConfig) : List ModelMessage → OrchState → ChatOutcome
  | [], st => .fatal "Failed to connect to Ollama" st
  | r :: rest, st =>
      match r.tool_calls with
      | [] =>
          .final r.content
            { st with conversation := st.conversation ++ [⟨"assistant", r.content, [], none⟩] }
      | tc :: tcs =>
          let count := st.tool_call_count + (tc :: tcs).length
          if cfg.max_tool_calls < count then
            .fatal (runawayMsg cfg.max_tool_calls) { st with tool_call_count := count }
          else
            chatLoop w registry cfg rest
              (processCalls w registry cfg (tc :: tcs)
                { st with
                  tool_call_count := count,
                  conversation := st.conversation ++
                    [⟨"assistant", r.content, tc :: tcs, none⟩] })

/-- `Orchestrator.chat`: append the user message, then run the loop. -/
def chat (w : World) (registry : PyDict ToolDefinition) (cfg : SecurityConfig)
    (script : List ModelMessage) (userMessage : String) (st : OrchState) :
    ChatOutcome :=
  chatLoop w registry cfg script
    { st with conversation := st.conversation ++ [⟨"user", userMessage, [], none⟩] }

/-- `Orchestrator.reset`: clears the conversation and the counter, not
the broker cache. -/
def reset (st : OrchState) : OrchState :=
  { st with conversation := [], tool_call_count := 0 }

/-! ## Shared helper lemmas -/

/-- A value that shares no character with `[REDACTED]` and is absent
from the accumulator stays absent through the rest of the scrub fold. -/
theorem scrubFold_pres {v : String} (hv : v.data ≠ [])
    (hd : ∀ a ∈ v.data, a ∉ ("[REDACTED]" : String).data) :
    ∀ (rest : PyDict String) (acc : String), ¬ v.data <:+: acc.data →
      ¬ v.data <:+:
        (List.foldl
          (fun acc p => if p.2 = "" then acc else pyReplace acc p.2 "[REDACTED]")
          acc rest).data := by
  intro rest
  induction rest with
  | nil => intro acc h; simpa using h
  | cons p rest ih =>
      intro acc h
      rw [List.foldl_cons]
      apply ih
      by_cases hp : p.2 = ""
      · simpa [hp] using h
      · simp only [if_neg hp]
        exact replaceCore_pres hv (by decide) hd p.2.data acc.data h

/-- Scrubbing removes every occurrence of each non-empty resolved value
that shares no character with the `[REDACTED]` marker, no matter how
short the value is. -/
theorem scrubOutput_no_occ (content : String) (secrets : PyDict String)
    (f v : String) (hmem : (f, v) ∈ secrets) (hne : v ≠ "")
    (hd : ∀ a ∈ v.data, a ∉ ("[REDACTED]" : String).data) :
    ¬ v.data <:+: (scrubOutput content secrets).data := by
  have hvd : v.data ≠ [] := by
    intro h
    apply hne
    cases v with
    | mk d => rw [show d = [] from h]
  obtain ⟨pre, post, hsplit⟩ := List.append_of_mem hmem
  subst hsplit
  unfold scrubOutput
  rw [List.foldl_append, List.foldl_cons]
  apply scrubFold_pres hvd hd
  have hifne : ((f, v).2 = "") = False := by simp [hne]
  simp only [hifne, if_false]
  exact replaceCore_no_occ hvd (by decide) hd _

/-! ## Claim C1 -/

/-- C1 counterexample: the claim says values at or below the minimum
scrub threshold (e.g. 4-character PINs) are not scrubbed, but
`_scrub_output` has no length threshold at all: a resolved 4-character
value `"1234"` is replaced with the redaction marker. -/
theorem c1_counterexample :
    scrubOutput "pin is 1234" [("pin", "1234")] = "pin is [REDACTED]" ∧
    ¬ ("1234" : String).data <:+: (scrubOutput "pin is 1234" [("pin", "1234")]).data := by
  constructor
  · decide
  · decide

/-- C1 (amended): `_scrub_output` replaces every literal occurrence of
every non-empty resolved secret value with `[REDACTED]`, with no minimum
length threshold: only empty values are skipped, and 4-character PINs
are scrubbed like any other value.  Stated for values sharing no
character with the marker (for such values no occurrence survives in
the scrubbed output). -/
theorem c1_scrub_has_no_length_threshold (content : String)
    (secrets : PyDict String) (f v : String) (hmem : (f, v) ∈ secrets)
    (hne : v ≠ "") (hd : ∀ a ∈ v.data, a ∉ ("[REDACTED]" : String).data) :
    ¬ v.data <:+: (scrubOutput content secrets).data :=
  scrubOutput_no_occ content secrets f v hmem hne hd

/-- C1 witness: the theorem applied to a 4-character PIN. -/
theorem c1_witness :
    (("pin", "1234") ∈ ([("pin", "1234")] : PyDict String)) ∧
    ¬ ("1234" : String).data <:+:
      (scrubOutput "my pin is 1234 ok" [("pin", "1234")]).data :=
  ⟨by decide,
    c1_scrub_has_no_length_threshold "my pin is 1234 ok" [("pin", "1234")]
      "pin" "1234" (by decide) (by decide) (by decide)⟩

/-! ## Claim C4 -/

/-- A world with nothing configured, used by concrete witnesses. -/
def emptyWorld : World :=
  ⟨fun _ => none, fun _ => .timedOut, fun _ _ _ => .error "unreachable"⟩

/-- A freshly constructed broker with no registrations. -/
def emptyBroker : BrokerState :=
  ⟨false, [], [], []⟩

/-- C4: for a call whose name has no registered executor, `execute_tool`
returns a failure result whose content identifies the tool as not
registered, and the broker state is untouched.  `executeTool` is a total
function into `ToolResult × BrokerState`, so no exception can escape to
the orchestrator. -/
theorem c4_unregistered_tool_fails_safely (w : World) (st : BrokerState)
    (call : ToolCall) (h : dictLookup st.executors call.name = none) :
    executeTool w st call =
      (⟨false, "Tool '" ++ call.name ++ "' not registered with secrets broker"⟩, st) := by
  unfold executeTool
  rw [h]

/-- C4 witness. -/
theorem c4_witness :
    dictLookup emptyBroker.executors "ghost_tool" = none ∧
    executeTool emptyWorld emptyBroker ⟨"call-1", "ghost_tool", []⟩ =
      (⟨false, "Tool '" ++ "ghost_tool" ++ "' not registered with secrets broker"⟩,
        emptyBroker) :=
  ⟨rfl,
    c4_unregistered_tool_fails_safely emptyWorld emptyBroker
      ⟨"call-1", "ghost_tool", []⟩ rfl⟩

/-! ## Claim C5 -/

/-- C5: environment variables win.  (1) If the reference has an
environment variable configured and it is set to a non-empty value `v`,
`_get_secret` returns `v` with the cache untouched — for every 1Password
oracle, so the store CLI is never consulted.  (2) The environment path
yields nothing exactly when the variable is not configured, unset, or
empty.  (3) Only in that case, with a store reference configured, does
`_get_secret` fall through to the 1Password CLI. -/
theorem c5_env_var_priority :
    (∀ (w : World) (cache : PyDict String) (ref : SecretReference) (n v : String),
        ref.env_var = some n → w.env n = some v → v ≠ "" →
        getSecret w cache ref = (.ok v, cache)) ∧
    (∀ (w : World) (ref : SecretReference),
        getSecretFromEnv w ref = none ↔
          (ref.env_var = none ∨
            ∃ n, ref.env_var = some n ∧ (w.env n = none ∨ w.env n = some ""))) ∧
    (∀ (w : World) (cache : PyDict String) (ref : SecretReference),
        getSecretFromEnv w ref = none → hasOpReference ref = true →
        getSecret w cache ref = getSecretFromOp w cache ref) := by
  refine ⟨?_, ?_, ?_⟩
  · intro w cache ref n v hn henv hne
    have h1 : getSecretFromEnv w ref = some v := by
      simp [getSecretFromEnv, hn, henv, hne]
    simp [getSecret, h1]
  · intro w ref
    cases hn : ref.env_var with
    | none => simp [getSecretFromEnv, hn]
    | some n =>
        cases he : w.env n with
        | none => simp [getSecretFromEnv, hn, he]
        | some v =>
            by_cases hv : v = ""
            · subst hv; simp [getSecretFromEnv, hn, he]
            · simp [getSecretFromEnv, hn, he, hv]
  · intro w cache ref henv hop
    simp [getSecret, henv, hop]

/-- C5 witness: with both sources configured and the environment set,
resolution returns the environment value and leaves the cache alone;
with no environment variable, resolution is the 1Password path. -/
theorem c5_witness :
    getSecret
        ⟨fun n => if n = "W_KEY" then some "V" else none,
          fun _ => .completed 0 "store-value" "", fun _ _ _ => .error ""⟩
        [] ⟨some "W_KEY", some "Vault", some "Item", "api_key"⟩ = (.ok "V", []) ∧
    getSecret
        ⟨fun n => if n = "W_KEY" then some "V" else none,
          fun _ => .completed 0 "store-value" "", fun _ _ _ => .error ""⟩
        [] ⟨none, some "Vault", some "Item", "api_key"⟩ =
      getSecretFromOp
        ⟨fun n => if n = "W_KEY" then some "V" else none,
          fun _ => .completed 0 "store-value" "", fun _ _ _ => .error ""⟩
        [] ⟨none, some "Vault", some "Item", "api_key"⟩ :=
  ⟨c5_env_var_priority.1 _ [] _ "W_KEY" "V" rfl (by decide) (by decide),
    c5_env_var_priority.2.2 _ [] _ (by decide) (by decide)⟩

/-! ## Claim C3 -/

/-- A reference resolvable from the environment, used to show that a
stale registration still resolves. -/
def c3RefOld : SecretReference := ⟨some "C3_KEY", none, none, "api_key"⟩

def c3ExecA : Executor := fun _ _ => .ok ⟨true, "A"⟩

def c3ExecB : Executor := fun _ _ => .ok ⟨true, "B"⟩

/-- A world in which `C3_KEY` is set. -/
def c3World : World :=
  ⟨fun n => if n = "C3_KEY" then some "old-secret-value" else none,
    fun _ => .timedOut, fun _ _ _ => .error ""⟩

/-- C3 counterexample: re-registering a tool with an empty
secret-reference list does not overwrite the prior registration
entirely — `register_tool` stores the references only when the new list
is truthy, so the old references survive and secret resolution for the
re-registered tool still resolves the old reference. -/
theorem c3_counterexample :
    dictLookup
        (registerTool (registerTool emptyBroker "t" c3ExecA (some [c3RefOld]))
          "t" c3ExecB (some [])).secret_refs "t" = some [c3RefOld] ∧
    resolveSecrets c3World
        (registerTool (registerTool emptyBroker "t" c3ExecA (some [c3RefOld]))
          "t" c3ExecB (some []))
        "t" = (.ok [("api_key", "old-secret-value")], []) := by
  constructor
  · decide
  · rfl

/-- C3 (amended): a second `register_tool` call always overwrites the
executor for the name, and overwrites the secret-reference list only
when the newly supplied list is truthy (non-`None` and non-empty);
re-registering with `None` or an empty list keeps the prior secret
references. -/
theorem c3_register_overwrite_semantics (st : BrokerState) (name : String)
    (ex : Executor) (secrets : Option (List SecretReference)) :
    dictLookup (registerTool st name ex secrets).executors name = some ex ∧
    (∀ r rs, secrets = some (r :: rs) →
      dictLookup (registerTool st name ex secrets).secret_refs name = some (r :: rs)) ∧
    (secrets = none ∨ secrets = some [] →
      (registerTool st name ex secrets).secret_refs = st.secret_refs) := by
  refine ⟨?_, ?_, ?_⟩
  · unfold registerTool
    exact dictLookup_insert_self st.executors name ex
  · intro r rs h
    subst h
    unfold registerTool
    exact dictLookup_insert_self st.secret_refs name (r :: rs)
  · rintro (h | h) <;> subst h <;> rfl

/-- C3 witness. -/
theorem c3_witness :
    dictLookup (registerTool emptyBroker "t" c3ExecB (some [c3RefOld])).executors "t" =
        some c3ExecB ∧
    dictLookup (registerTool emptyBroker "t" c3ExecB (some [c3RefOld])).secret_refs "t" =
        some [c3RefOld] ∧
    (registerTool emptyBroker "t" c3ExecB (some [])).secret_refs =
        emptyBroker.secret_refs :=
  ⟨(c3_register_overwrite_semantics emptyBroker "t" c3ExecB (some [c3RefOld])).1,
    (c3_register_overwrite_semantics emptyBroker "t" c3ExecB (some [c3RefOld])).2.1
      c3RefOld [] rfl,
    (c3_register_overwrite_semantics emptyBroker "t" c3ExecB (some [])).2.2
      (Or.inr rfl)⟩

/-! ## Claim C2 -/

/-- An environment-only secret reference for the weather-style
`api_key` field. -/
def c2Ref : SecretReference := ⟨some "API_KEY", none, none, "api_key"⟩

/-- An executor whose exception message embeds the resolved secret (the
scenario the scrubbing of error messages is meant to cover). -/
def c2Exec : Executor :=
  fun _ secrets =>
    .error ("Auth failed for key " ++ (dictLookup secrets "api_key").getD "")

/-- A world where `API_KEY` is set to a long secret value. -/
def c2World : World :=
  ⟨fun n => if n = "API_KEY" then some "env-secret-value-123" else none,
    fun _ => .timedOut, fun _ _ _ => .error ""⟩

/-- A broker with the raising executor registered behind the
environment-only reference. -/
def c2Broker : BrokerState :=
  ⟨false, [("t", c2Exec)], [("t", [c2Ref])], []⟩

/-- C2 exhibits a code bug: the exception branch of `execute_tool`
rebuilds the secrets to scrub from `_secret_cache` keyed by the `op://`
URI, but environment-resolved secrets are never cached, so a secret that
was resolved from the environment for this very call appears verbatim in
the returned error content.  Both the spec and the broker docstring
(`SECURITY: Secrets never leave this component.`) require it to be
scrubbed. -/
theorem c2_env_resolved_secret_leaks_in_error_path :
    (executeTool c2World c2Broker ⟨"1", "t", []⟩).1 =
      ⟨false, "Tool execution failed: Auth failed for key env-secret-value-123"⟩ ∧
    ("env-secret-value-123" : String).data <:+:
      (executeTool c2World c2Broker ⟨"1", "t", []⟩).1.content.data := by
  constructor
  · decide
  · decide

/-! ## Claims C6 and C7: unresolvable references -/

/-- The 1Password path cannot produce a value: either no `(vault, item)`
pair is configured, or the URI is not cached and the CLI invocation
fails (non-zero exit, timeout, or missing executable). -/
def opUnavailable (w : World) (cache : PyDict String)
    (ref : SecretReference) : Prop :=
  ∀ u, refUri ref = some u →
    dictLookup cache u = none ∧
      (match w.opRead u with
       | .completed rc _ _ => rc ≠ 0
       | _ => True)

/-- Neither resolution source can produce a value for the reference. -/
def unresolvable (w : World) (cache : PyDict String)
    (ref : SecretReference) : Prop :=
  getSecretFromEnv w ref = none ∧ opUnavailable w cache ref

/-- `_get_secret` raises (with the cache untouched) whenever neither
source can produce a value. -/
theorem getSecret_unresolvable {w : World} {cache : PyDict String}
    {ref : SecretReference} (henv : getSecretFromEnv w ref = none)
    (hop : opUnavailable w cache ref) :
    ∃ e, getSecret w cache ref = (.error e, cache) := by
  unfold getSecret
  rw [henv]
  by_cases h : hasOpReference ref = true
  · rw [if_pos h]
    unfold getSecretFromOp
    have hex : ∃ u, refUri ref = some u := by
      unfold hasOpReference at h
      unfold refUri
      cases hv : ref.vault with
      | none => rw [hv] at h; simp at h
      | some a =>
          cases hi : ref.item with
          | none => rw [hv, hi] at h; simp at h
          | some b => exact ⟨_, rfl⟩
    obtain ⟨u, hu⟩ := hex
    simp only [hu]
    obtain ⟨hc, hrc⟩ := hop u hu
    simp only [hc]
    cases hor : w.opRead u with
    | completed rc out err =>
        rw [hor] at hrc
        simp only [if_pos hrc]
        exact ⟨_, rfl⟩
    | timedOut => exact ⟨_, rfl⟩
    | notFound => exact ⟨_, rfl⟩
  · rw [if_neg h]
    exact ⟨_, rfl⟩

/-- Live-mode resolution of a tool with a single unresolvable reference
aborts with the required-secret message and leaves the cache alone. -/
theorem resolveSecrets_single_fail {w : World} {st : BrokerState}
    {name : String} {ref : SecretReference}
    (hreq : st.require_secrets = true)
    (hrefs : dictLookup st.secret_refs name = some [ref])
    (henv : getSecretFromEnv w ref = none)
    (hop : opUnavailable w st.cache ref) :
    resolveSecrets w st name = (.error (requiredErr ref), st.cache) := by
  obtain ⟨e, he⟩ := getSecret_unresolvable henv hop
  unfold resolveSecrets
  simp only [hrefs, hreq, Option.getD_some]
  unfold resolveLoop
  simp only [he]
  simp

/-- C6: with `require_secrets` set and a tool whose single secret
reference has no resolvable source, `_resolve_secrets` raises the
descriptive `requiredErr` message — built solely from the configured
identifiers (`env_var`, `item`, `field`), never from secret values — and
`execute_tool` converts it into a failure result without invoking the
executor: the result is the same for every executor registered under the
name, and the final state differs from the input state in nothing. -/
theorem c6_live_mode_aborts_without_executing (w : World) (st : BrokerState)
    (name id : String) (args : PyDict String) (ref : SecretReference)
    (hreq : st.require_secrets = true)
    (hrefs : dictLookup st.secret_refs name = some [ref])
    (henv : getSecretFromEnv w ref = none)
    (hop : opUnavailable w st.cache ref) :
    resolveSecrets w st name = (.error (requiredErr ref), st.cache) ∧
    ∀ ex : Executor,
      executeTool w { st with executors := dictInsert st.executors name ex }
          ⟨id, name, args⟩ =
        (⟨false, "Tool execution failed: " ++ requiredErr ref⟩,
          { st with executors := dictInsert st.executors name ex }) := by
  have hres := resolveSecrets_single_fail hreq hrefs henv hop
  refine ⟨hres, ?_⟩
  intro ex
  have hres' :
      resolveSecrets w { st with executors := dictInsert st.executors name ex }
        name = (.error (requiredErr ref), st.cache) := hres
  have hX :
      (match refUri ref with
       | some u => (dictLookup st.cache u).getD ""
       | none => "") = "" := by
    cases hu : refUri ref with
    | none => rfl
    | some u => simp only [(hop u hu).1, Option.getD_none]
  unfold executeTool
  simp only [dictLookup_insert_self, hres']
  unfold exceptResult
  simp only [hrefs]
  unfold cachedSecrets
  simp only [List.foldl_cons, List.foldl_nil, hX]
  simp [scrubOutput, dictInsert]

/-- A tool with nothing configured at all for its one secret. -/
def c6Ref : SecretReference := ⟨none, none, none, "api_key"⟩

def c6Exec : Executor := fun _ _ => .ok ⟨true, "should never run"⟩

/-- A live-mode broker knowing only the tool `t` and its unresolvable
reference. -/
def c6Broker : BrokerState := ⟨true, [], [("t", [c6Ref])], []⟩

/-- C6 witness. -/
theorem c6_witness :
    resolveSecrets emptyWorld c6Broker "t" =
      (.error (requiredErr c6Ref), c6Broker.cache) ∧
    executeTool emptyWorld
        { c6Broker with executors := dictInsert c6Broker.executors "t" c6Exec }
        ⟨"call-1", "t", []⟩ =
      (⟨false, "Tool execution failed: " ++ requiredErr c6Ref⟩,
        { c6Broker with executors := dictInsert c6Broker.executors "t" c6Exec }) :=
  ⟨(c6_live_mode_aborts_without_executing emptyWorld c6Broker "t" "call-1" []
      c6Ref rfl rfl rfl (fun _ hu => nomatch hu)).1,
    (c6_live_mode_aborts_without_executing emptyWorld c6Broker "t" "call-1" []
      c6Ref rfl rfl rfl (fun _ hu => nomatch hu)).2 c6Exec⟩

/-! ## Claim C7 -/

/-- Mock-mode resolution of a list of unresolvable references skips
every field: the accumulated mapping and the cache are returned
unchanged. -/
theorem resolveLoop_mock_all_fail {w : World} {cache : PyDict String} :
    ∀ (refs : List SecretReference) (acc : PyDict String),
      (∀ ref ∈ refs, unresolvable w cache ref) →
      resolveLoop w false refs acc cache = (.ok acc, cache) := by
  intro refs
  induction refs with
  | nil => intro acc _; rfl
  | cons ref rest ih =>
      intro acc hall
      obtain ⟨henv, hop⟩ := hall ref (List.mem_cons_self ref rest)
      obtain ⟨e, he⟩ := getSecret_unresolvable henv hop
      unfold resolveLoop
      simp only [he]
      simpa using ih acc (fun r hr => hall r (List.mem_cons_of_mem _ hr))

/-- The last member of a four-member `json.dumps` object is a literal
substring of the serialized object. -/
theorem jsonObj4_tag (a b c : String × String) (k v : String) :
    (jsonMember k v).data <:+: (jsonObj [a, b, c, (k, v)]).data := by
  refine
    ⟨("\x7b" ++ jsonMember a.1 a.2 ++ ", " ++ jsonMember b.1 b.2 ++ ", " ++
        jsonMember c.1 c.2 ++ ", ").data,
      ("\x7d" : String).data, ?_⟩
  simp only [jsonObj, List.map_cons, List.map_nil, joinComma,
    String.data_append, List.append_assoc]

/-- Every `_mock_weather` response carries the
`"source": "mock_data"` member in its serialized content. -/
theorem mockWeather_tagged (location fmt : String) :
    ("\"source\": \"mock_data\"" : String).data <:+:
      (mockWeather location fmt).content.data := by
  have hm : ("\"source\": \"mock_data\"" : String) = jsonMember "source" "mock_data" := by
    decide
  rw [hm]
  exact jsonObj4_tag _ _ _ "source" "mock_data"

/-- C7: with `require_secrets` unset and none of the tool's references
resolvable, `_resolve_secrets` returns the empty mapping (each missing
field omitted) without touching the cache; the executor is still
invoked with that empty mapping, and for the weather executor the call
succeeds with the mock response, whose content carries the
`"source": "mock_data"` tag. -/
theorem c7_mock_mode_degrades_to_simulated (w : World) (st : BrokerState)
    (name id : String) (args : PyDict String) (refs : List SecretReference)
    (hreq : st.require_secrets = false)
    (hrefs : dictLookup st.secret_refs name = some refs)
    (hall : ∀ ref ∈ refs, unresolvable w st.cache ref)
    (hex : dictLookup st.executors name = some (weatherExecutor w)) :
    resolveSecrets w st name = (.ok [], st.cache) ∧
    executeTool w st ⟨id, name, args⟩ =
      (mockWeather ((dictLookup args "location").getD "Unknown")
        ((dictLookup args "format").getD "celsius"), st) ∧
    (executeTool w st ⟨id, name, args⟩).1.success = true ∧
    ("\"source\": \"mock_data\"" : String).data <:+:
      (executeTool w st ⟨id, name, args⟩).1.content.data := by
  have hres : resolveSecrets w st name = (.ok [], st.cache) := by
    unfold resolveSecrets
    simp only [hrefs, hreq, Option.getD_some]
    exact resolveLoop_mock_all_fail refs [] hall
  have hmain : executeTool w st ⟨id, name, args⟩ =
      (mockWeather ((dictLookup args "location").getD "Unknown")
        ((dictLookup args "format").getD "celsius"), st) := by
    unfold executeTool
    simp only [hex, hres]
    rfl
  refine ⟨hres, hmain, ?_, ?_⟩
  · rw [hmain]
    rfl
  · rw [hmain]
    exact mockWeather_tagged _ _

/-- A reference with an unset environment variable and no store pair. -/
def c7Ref : SecretReference := ⟨some "MISSING_KEY", none, none, "api_key"⟩

/-- A mock-mode broker with the weather executor registered behind the
unresolvable reference. -/
def c7Broker : BrokerState :=
  ⟨false, [("get_current_weather", weatherExecutor emptyWorld)],
    [("get_current_weather", [c7Ref])], []⟩

/-- C7 witness: the weather tool called for Paris in celsius with no
resolvable secret source succeeds with mock data. -/
theorem c7_witness :
    resolveSecrets emptyWorld c7Broker "get_current_weather" =
      (.ok [], c7Broker.cache) ∧
    executeTool emptyWorld c7Broker
        ⟨"call-1", "get_current_weather", [("location", "Paris"), ("format", "celsius")]⟩ =
      (mockWeather
          ((dictLookup [("location", "Paris"), ("format", "celsius")] "location").getD "Unknown")
          ((dictLookup [("location", "Paris"), ("format", "celsius")] "format").getD "celsius"),
        c7Broker) ∧
    (executeTool emptyWorld c7Broker
        ⟨"call-1", "get_current_weather",
          [("location", "Paris"), ("format", "celsius")]⟩).1.success = true ∧
    ("\"source\": \"mock_data\"" : String).data <:+:
      (executeTool emptyWorld c7Broker
        ⟨"call-1", "get_current_weather",
          [("location", "Paris"), ("format", "celsius")]⟩).1.content.data :=
  c7_mock_mode_degrades_to_simulated emptyWorld c7Broker "get_current_weather"
    "call-1" [("location", "Paris"), ("format", "celsius")] [c7Ref] rfl rfl
    (by
      intro r hr
      rw [show r = c7Ref from by simpa using hr]
      exact ⟨rfl, fun _ hu => nomatch hu⟩)
    rfl

/-! ## Claim C10 -/

/-- What a cache entry must look like: its key is an `op://` URI built
from a vault, an item and a field, and its value is exactly the stripped
stdout of a successful (`returncode == 0`) CLI read of that URI. -/
def cacheEntryOk (w : World) (k v : String) : Prop :=
  (∃ vault item fld, k = "op://" ++ vault ++ "/" ++ item ++ "/" ++ fld) ∧
  (∃ out err, w.opRead k = .completed 0 out err ∧ v = pyStrip out)

/-- Every entry of the secret cache is a store-fetched value keyed by
its `op://` URI. -/
def cacheOK (w : World) (cache : PyDict String) : Prop :=
  ∀ k v, (k, v) ∈ cache → cacheEntryOk w k v

theorem getSecretFromOp_cacheOK {w : World} {cache : PyDict String}
    (ref : SecretReference) (h : cacheOK w cache) :
    cacheOK w (getSecretFromOp w cache ref).2 := by
  unfold getSecretFromOp
  split
  · exact h
  · rename_i u hu
    split
    · exact h
    · split
      · rename_i rc out err hop
        split
        · exact h
        · rename_i hrc
          intro k v hk
          rcases mem_dictInsert hk with he | he
          · have hk' : k = u := congrArg Prod.fst he
            have hv' : v = pyStrip out := congrArg Prod.snd he
            subst hk'
            constructor
            · unfold refUri at hu
              cases hvv : ref.vault with
              | none => rw [hvv] at hu; exact absurd hu (by simp)
              | some a =>
                  cases hii : ref.item with
                  | none => rw [hvv, hii] at hu; exact absurd hu (by simp)
                  | some b =>
                      rw [hvv, hii] at hu
                      injection hu with hu'
                      exact ⟨a, b, ref.field, hu'.symm⟩
            · have hz : rc = 0 := by omega
              subst hz
              exact ⟨out, err, hop, hv'⟩
          · exact h k v he
      · exact h
      · exact h

theorem getSecret_cacheOK {w : World} (cache : PyDict String)
    (ref : SecretReference) (h : cacheOK w cache) :
    cacheOK w (getSecret w cache ref).2 := by
  unfold getSecret
  split
  · exact h
  · split
    · exact getSecretFromOp_cacheOK ref h
    · exact h

theorem resolveLoop_cacheOK (w : World) (rq : Bool) :
    ∀ (refs : List SecretReference) (acc cache : PyDict String),
      cacheOK w cache → cacheOK w (resolveLoop w rq refs acc cache).2 := by
  intro refs
  induction refs with
  | nil => intro acc cache h; exact h
  | cons ref rest ih =>
      intro acc cache h
      have hg := getSecret_cacheOK cache ref h
      unfold resolveLoop
      split
      · rename_i v cache' hgs
        rw [hgs] at hg
        exact ih _ _ hg
      · rename_i e cache' hgs
        rw [hgs] at hg
        split
        · exact hg
        · exact ih _ _ hg

theorem executeTool_cacheOK {w : World} (st : BrokerState) (call : ToolCall)
    (h : cacheOK w st.cache) : cacheOK w (executeTool w st call).2.cache := by
  have hr := resolveLoop_cacheOK w st.require_secrets
    ((dictLookup st.secret_refs call.name).getD []) [] st.cache h
  unfold executeTool
  split
  · exact h
  · split
    · rename_i secrets cache' hrs
      unfold resolveSecrets at hrs
      rw [hrs] at hr
      split
      · exact hr
      · exact hr
    · rename_i e cache' hrs
      unfold resolveSecrets at hrs
      rw [hrs] at hr
      exact hr

/-- C10: (1) the broker entry point preserves the cache invariant — the
cache only ever holds values fetched from the store CLI, keyed by their
`op://` URI — and (2) a reference resolved from the environment returns
the environment value with the cache untouched, so environment-resolved
values are never inserted. -/
theorem c10_cache_holds_only_op_fetched_values :
    (∀ (w : World) (st : BrokerState) (call : ToolCall),
        cacheOK w st.cache → cacheOK w (executeTool w st call).2.cache) ∧
    (∀ (w : World) (cache : PyDict String) (ref : SecretReference) (v : String),
        getSecretFromEnv w ref = some v →
        getSecret w cache ref = (.ok v, cache)) := by
  constructor
  · intro w st call h
    exact executeTool_cacheOK st call h
  · intro w cache ref v h
    unfold getSecret
    rw [h]

/-- A world where the weather key is in the environment. -/
def c10World : World :=
  ⟨fun n => if n = "C10_KEY" then some "c10-env-value" else none,
    fun _ => .timedOut, fun _ _ _ => .error ""⟩

/-- An environment-only reference for the C10 witness. -/
def c10Ref : SecretReference := ⟨some "C10_KEY", none, none, "api_key"⟩

/-- A broker for the C10 witness: executor raising through the
environment-backed reference, starting from an empty (invariant-holding)
cache. -/
def c10Broker : BrokerState :=
  ⟨false, [("t", c2Exec)], [("t", [c10Ref])], []⟩

/-- C10 witness: executing through the broker keeps the invariant from
the empty cache, and the environment-backed reference resolves without
touching the cache. -/
theorem c10_witness :
    cacheOK c10World (executeTool c10World c10Broker ⟨"1", "t", []⟩).2.cache ∧
    getSecret c10World [] c10Ref = (.ok "c10-env-value", []) :=
  ⟨c10_cache_holds_only_op_fetched_values.1 c10World c10Broker ⟨"1", "t", []⟩
      (fun _ _ hk => nomatch hk),
    c10_cache_holds_only_op_fetched_values.2 c10World [] c10Ref "c10-env-value"
      (by decide)⟩

/-! ## Claim C8 -/

/-- Processing a batch of tool calls never changes the cumulative
tool-call counter (it was already incremented for the whole batch). -/
theorem processCalls_count (w : World) (registry : PyDict ToolDefinition)
    (cfg : SecurityConfig) :
    ∀ (calls : List RawToolCall) (st : OrchState),
      (processCalls w registry cfg calls st).tool_call_count =
        st.tool_call_count := by
  intro calls
  induction calls with
  | nil => intro st; rfl
  | cons tc rest ih =>
      intro st
      unfold processCalls
      split
      · rw [ih]
      · rw [ih]

/-- C8: the orchestrator counter accumulates across the session.  (1) If
the counter, incremented by the size of the requested batch, strictly
exceeds `max_tool_calls`, the turn aborts with the fatal runaway-agent
message before the assistant message is appended or any call of the
batch reaches the broker: the conversation and the broker state of the
aborted turn are exactly the input ones, with only the counter updated.
(2) Otherwise the loop continues with the counter incremented by exactly
the batch size. -/
theorem c8_cumulative_session_limit :
    (∀ (w : World) (registry : PyDict ToolDefinition) (cfg : SecurityConfig)
        (r : ModelMessage) (rest : List ModelMessage) (st : OrchState),
        r.tool_calls ≠ [] →
        cfg.max_tool_calls < st.tool_call_count + r.tool_calls.length →
        chatLoop w registry cfg (r :: rest) st =
          .fatal (runawayMsg cfg.max_tool_calls)
            { st with tool_call_count := st.tool_call_count + r.tool_calls.length }) ∧
    (∀ (w : World) (registry : PyDict ToolDefinition) (cfg : SecurityConfig)
        (r : ModelMessage) (rest : List ModelMessage) (st : OrchState),
        r.tool_calls ≠ [] →
        st.tool_call_count + r.tool_calls.length ≤ cfg.max_tool_calls →
        ∃ st2 : OrchState,
          chatLoop w registry cfg (r :: rest) st = chatLoop w registry cfg rest st2 ∧
          st2.tool_call_count = st.tool_call_count + r.tool_calls.length) := by
  constructor
  · intro w registry cfg r rest st hne hover
    obtain ⟨rcontent, rtcl⟩ := r
    cases rtcl with
    | nil => exact absurd rfl hne
    | cons tc tcs =>
        show (if cfg.max_tool_calls < st.tool_call_count + (tc :: tcs).length then
            ChatOutcome.fatal (runawayMsg cfg.max_tool_calls)
              { st with tool_call_count := st.tool_call_count + (tc :: tcs).length }
          else
            chatLoop w registry cfg rest
              (processCalls w registry cfg (tc :: tcs)
                { st with
                  tool_call_count := st.tool_call_count + (tc :: tcs).length,
                  conversation := st.conversation ++
                    [⟨"assistant", rcontent, tc :: tcs, none⟩] })) =
          ChatOutcome.fatal (runawayMsg cfg.max_tool_calls)
            { st with tool_call_count := st.tool_call_count + (tc :: tcs).length }
        exact if_pos hover
  · intro w registry cfg r rest st hne hunder
    obtain ⟨rcontent, rtcl⟩ := r
    cases rtcl with
    | nil => exact absurd rfl hne
    | cons tc tcs =>
        refine ⟨processCalls w registry cfg (tc :: tcs)
          { st with
            tool_call_count := st.tool_call_count + (tc :: tcs).length,
            conversation := st.conversation ++
              [⟨"assistant", rcontent, tc :: tcs, none⟩] },
          ?_, ?_⟩
        · show (if cfg.max_tool_calls < st.tool_call_count + (tc :: tcs).length then
              ChatOutcome.fatal (runawayMsg cfg.max_tool_calls)
                { st with tool_call_count := st.tool_call_count + (tc :: tcs).length }
            else
              chatLoop w registry cfg rest
                (processCalls w registry cfg (tc :: tcs)
                  { st with
                    tool_call_count := st.tool_call_count + (tc :: tcs).length,
                    conversation := st.conversation ++
                      [⟨"assistant", rcontent, tc :: tcs, none⟩] })) = _
          exact if_neg (not_lt.mpr hunder)
        · rw [processCalls_count]

/-- C8 witness: with a limit of 2 and a session that has already used 2
calls, a batch of one valid-shaped call aborts the turn fatally; with a
fresh session the same batch is processed and the counter becomes 1. -/
theorem c8_witness :
    chatLoop emptyWorld [] ⟨2, []⟩ [⟨"", [⟨some "c1", some "t", []⟩]⟩]
        ⟨[], 2, emptyBroker⟩ =
      .fatal (runawayMsg 2)
        { (⟨[], 2, emptyBroker⟩ : OrchState) with tool_call_count := 2 + 1 } ∧
    ∃ st2 : OrchState,
      chatLoop emptyWorld [] ⟨2, []⟩ [⟨"", [⟨some "c1", some "t", []⟩]⟩]
          ⟨[], 0, emptyBroker⟩ =
        chatLoop emptyWorld [] ⟨2, []⟩ [] st2 ∧
      st2.tool_call_count = 0 + 1 :=
  ⟨c8_cumulative_session_limit.1 emptyWorld [] ⟨2, []⟩
      ⟨"", [⟨some "c1", some "t", []⟩]⟩ [] ⟨[], 2, emptyBroker⟩
      (by decide) (by decide),
    c8_cumulative_session_limit.2 emptyWorld [] ⟨2, []⟩
      ⟨"", [⟨some "c1", some "t", []⟩]⟩ [] ⟨[], 0, emptyBroker⟩
      (by decide) (by decide)⟩

/-! ## Claim C9 -/

/-- C9: a tool call for a registered, allowed tool whose arguments miss a
schema-required parameter fails validation with a `ValueError` naming
both the (first) missing parameter and the tool; in the batch loop of
`chat` this error is recorded as a tool-result message tagged with the
call id — processing simply continues with the remaining calls, nothing
is raised to the caller of `chat`. -/
theorem c9_missing_required_param_recorded (registry : PyDict ToolDefinition)
    (cfg : SecurityConfig) (tc : RawToolCall) (n p : String)
    (td : ToolDefinition)
    (hname : tc.funcName = some n)
    (hreg : dictLookup registry n = some td)
    (hallow : cfg.allowed_tools = [] ∨ n ∈ cfg.allowed_tools)
    (hmiss : firstMissing td.required tc.arguments = some p) :
    validateToolCall registry cfg tc =
      .error ("Missing required parameter '" ++ p ++ "' for tool '" ++ n ++ "'") ∧
    p ∈ td.required ∧
    dictLookup tc.arguments p = none ∧
    (∀ (w : World) (rest : List RawToolCall) (st : OrchState),
        processCalls w registry cfg (tc :: rest) st =
          processCalls w registry cfg rest
            { st with
              conversation := st.conversation ++
                [⟨"tool",
                  "Error executing tool: " ++
                    ("Missing required parameter '" ++ p ++ "' for tool '" ++ n ++ "'"),
                  [], some (tc.id.getD "unknown")⟩] }) := by
  have hval : validateToolCall registry cfg tc =
      .error ("Missing required parameter '" ++ p ++ "' for tool '" ++ n ++ "'") := by
    unfold validateToolCall
    rw [hname]
    simp only [hreg]
    have hb : (!cfg.allowed_tools.isEmpty && !cfg.allowed_tools.contains n) = false := by
      rcases hallow with h | h
      · rw [h]; rfl
      · have : cfg.allowed_tools.contains n = true := List.elem_eq_true_of_mem h
        rw [this]
        simp
    rw [if_neg (by rw [hb]; exact Bool.false_ne_true)]
    simp only [hmiss]
  refine ⟨hval, List.mem_of_find?_eq_some hmiss, ?_, ?_⟩
  · have := List.find?_some hmiss
    simpa [Option.isNone_iff_eq_none] using this
  · intro w rest st
    show (match validateToolCall registry cfg tc with
      | .ok call =>
          processCalls w registry cfg rest
            { st with
              broker := (executeTool w st.broker call).2,
              conversation := st.conversation ++
                [Message.mk "tool" (executeTool w st.broker call).1.content []
                  (some call.id)] }
      | .error e =>
          processCalls w registry cfg rest
            { st with
              conversation := st.conversation ++
                [Message.mk "tool" ("Error executing tool: " ++ e) []
                  (some (tc.id.getD "unknown"))] }) = _
    rw [hval]

/-- The registry entry for the weather tool, as loaded from the tool
configuration: `location` and `format` are required. -/
def weatherToolDef : ToolDefinition :=
  ⟨"get_current_weather",
    "Get the current weather for a location. Returns temperature and conditions.",
    ["location", "format"]⟩

/-- C9 witness: a weather call missing `format` is recorded as a tool
error message naming `format` and the tool, and the batch continues. -/
theorem c9_witness :
    validateToolCall [("get_current_weather", weatherToolDef)] ⟨10, []⟩
        ⟨some "call-7", some "get_current_weather", [("location", "Paris")]⟩ =
      .error ("Missing required parameter '" ++ "format" ++ "' for tool '" ++
        "get_current_weather" ++ "'") ∧
    "format" ∈ weatherToolDef.required ∧
    dictLookup [("location", "Paris")] "format" = none ∧
    processCalls emptyWorld [("get_current_weather", weatherToolDef)] ⟨10, []⟩
        [⟨some "call-7", some "get_current_weather", [("location", "Paris")]⟩]
        ⟨[], 1, emptyBroker⟩ =
      { (⟨[], 1, emptyBroker⟩ : OrchState) with
        conversation := [] ++
          [⟨"tool",
            "Error executing tool: " ++
              ("Missing required parameter '" ++ "format" ++ "' for tool '" ++
                "get_current_weather" ++ "'"),
            [], some "call-7"⟩] } := by
  have h := c9_missing_required_param_recorded
    [("get_current_weather", weatherToolDef)] ⟨10, []⟩
    ⟨some "call-7", some "get_current_weather", [("location", "Paris")]⟩
    "get_current_weather" "format" weatherToolDef rfl (by decide)
    (Or.inl rfl) (by decide)
  exact ⟨h.1, h.2.1, h.2.2.1, h.2.2.2 emptyWorld [] ⟨[], 1, emptyBroker⟩⟩

end SecureTools
